import Mathlib

/-!
Verification of the goa-v1 JWT security middleware
(middleware/security/jwt/jwt.go) and of the base-path/param rules of the
design DSL, against the natural-language specification.

The middleware is embedded shallowly: Go strings that are inspected
character by character are modelled as List Char, the JWT library
(golang-jwt/jwt) is modelled as a black-box parser that reports, for each
token string, its declared algorithm, its claims and the set of keys under
which its signature (and exp/nbf checks) verify.  Everything that jwt.go
itself does -- key partitioning, bucket iteration, the algorithm-prefix
keyfunc, claim-scope parsing, the authorization loop -- is translated
faithfully from the source.
-/

namespace GoaJwt

/-- ASCII lower-casing of one character, as Go strings.ToLower acts on
ASCII input. -/
def lowerChar (c : Char) : Char :=
  if 65 ≤ c.toNat ∧ c.toNat ≤ 90 then Char.ofNat (c.toNat + 32) else c

/-- Lower-casing of a character list, modelling strings.ToLower. -/
def lowerStr (l : List Char) : List Char := l.map lowerChar

/-- Go strings.Split with a one-character separator, on character lists.
Like Go, splitting the empty string yields a one-element list holding the
empty string. -/
def goSplitChar (sep : Char) : List Char → List (List Char)
  | [] => [[]]
  | c :: rest =>
    if c = sep then [] :: goSplitChar sep rest
    else (c :: (goSplitChar sep rest).headD []) :: (goSplitChar sep rest).tail

/-- Go strings.Split with a one-character separator, on strings. -/
def goSplit (s : String) (sep : Char) : List String :=
  (goSplitChar sep s.toList).map List.asString

/-- A dynamically typed Go value as produced by JSON unmarshalling into
an interface value: null, string, number, boolean, or array. -/
inductive GoVal
  | null
  | str (s : String)
  | num (n : Int)
  | boolean (b : Bool)
  | arr (elems : List GoVal)

/-- Whether a Go value is nil, as the rawscopes != nil test in
parseClaimScopes checks. -/
def GoVal.isNull : GoVal → Bool
  | GoVal.null => true
  | _ => false

/-- A verification key held by the middleware, tagged by its Go type:
an RSA public key, an ECDSA public key, or an HMAC byte-string key.
RSA and ECDSA keys are abstracted by an identity. -/
inductive VKey
  | rsa (id : Nat)
  | ecdsa (id : Nat)
  | hmac (bytes : List Nat)
deriving DecidableEq

/-- The dynamic shape of the Claims field of a parsed token: either the
jwt.MapClaims mapping that jwt.Parse produces, or some other shape. -/
inductive TokenClaims
  | mapClaims (m : List (String × GoVal))
  | otherShape

/-- A parsed JWT as the black-box library reports it: the declared
algorithm name from the token header, the set of keys under which the
signature verifies, the claims, and whether the exp/nbf checks pass. -/
structure RawToken where
  alg : String
  sigKeys : List VKey
  claims : TokenClaims
  timeValid : Bool

/-- Model of jwt.Parse as called from validateRSAKeys, validateECDSAKeys
and validateHMACKeys: the keyfunc used there rejects the token unless its
declared algorithm starts with the two-letter bucket name, and otherwise
hands the key to the library, which verifies the signature and the
exp/nbf dates.  The ambient parse function maps a token string to its
parse result (none when the string is malformed). -/
def jwtParseWith (parseTok : List Char → Option RawToken) (tokenStr : List Char)
    (algo : String) (key : VKey) : Except String RawToken :=
  match parseTok tokenStr with
  | none => Except.error "token is malformed"
  | some t =>
    if algo.toList.isPrefixOf t.alg.toList then
      if t.sigKeys.contains key && t.timeValid then Except.ok t
      else Except.error "signature is invalid"
    else Except.error "Unexpected signing method"

/-- The shared loop body of the three validateXXXKeys functions: try each
key in order with jwt.Parse, returning on the first success; when every
key fails, the loop falls through with the last attempt's token and
error values (Go named return values start as nil/nil for an empty key
list). -/
def validateKeysLoop (parseTok : List Char → Option RawToken) (algo : String)
    (tokenStr : List Char) : List VKey → Option RawToken × Option String
  | [] => (none, none)
  | k :: rest =>
    match jwtParseWith parseTok tokenStr algo k, rest with
    | Except.ok t, _ => (some t, none)
    | Except.error e, [] => (parseTok tokenStr, some e)
    | Except.error _, k2 :: ks => validateKeysLoop parseTok algo tokenStr (k2 :: ks)

/-- validateRSAKeys from jwt.go: try each RSA public key in order. -/
def validateRSAKeys (parseTok : List Char → Option RawToken) (rsaKeys : List Nat)
    (algo : String) (incomingToken : List Char) : Option RawToken × Option String :=
  validateKeysLoop parseTok algo incomingToken (rsaKeys.map VKey.rsa)

/-- validateECDSAKeys from jwt.go: try each ECDSA public key in order. -/
def validateECDSAKeys (parseTok : List Char → Option RawToken) (ecdsaKeys : List Nat)
    (algo : String) (incomingToken : List Char) : Option RawToken × Option String :=
  validateKeysLoop parseTok algo incomingToken (ecdsaKeys.map VKey.ecdsa)

/-- validateHMACKeys from jwt.go: try each HMAC key in order. -/
def validateHMACKeys (parseTok : List Char → Option RawToken) (hmacKeys : List (List Nat))
    (algo : String) (incomingToken : List Char) : Option RawToken × Option String :=
  validateKeysLoop parseTok algo incomingToken (hmacKeys.map VKey.hmac)

/-- The dynamic type of the validationKeys argument of New: one case per
arm of the type switch in partitionKeys, plus a case for every type the
switch does not recognise. -/
inductive ValidationKeys
  | hmacBytes (b : List Nat)
  | hmacBytesList (l : List (List Nat))
  | hmacString (s : String)
  | hmacStringList (l : List String)
  | rsaSingle (k : Nat)
  | rsaList (l : List Nat)
  | ecdsaSingle (k : Nat)
  | ecdsaList (l : List Nat)
  | unknownType
deriving DecidableEq

/-- The bytes of a Go string, for the string arms of partitionKeys. -/
def strBytes (s : String) : List Nat := s.toList.map Char.toNat

/-- partitionKeys from jwt.go: sort the dynamically typed key input into
the RSA, ECDSA and HMAC buckets; unrecognised types leave all three
buckets empty. -/
def partitionKeys : ValidationKeys → List Nat × List Nat × List (List Nat)
  | ValidationKeys.hmacBytes b => ([], [], [b])
  | ValidationKeys.hmacBytesList l => ([], [], l)
  | ValidationKeys.hmacString s => ([], [], [strBytes s])
  | ValidationKeys.hmacStringList l => ([], [], l.map strBytes)
  | ValidationKeys.rsaSingle k => ([k], [], [])
  | ValidationKeys.rsaList l => (l, [], [])
  | ValidationKeys.ecdsaSingle k => ([], [k], [])
  | ValidationKeys.ecdsaList l => ([], l, [])
  | ValidationKeys.unknownType => ([], [], [])

/-- validScopeClaimKeys from jwt.go: the claims under which scopes may be
found in a token, in lookup order. -/
def validScopeClaimKeys : List String := ["scope", "scopes"]

/-- The result of parseClaimScopes: the scope set (as the list of keys
inserted into the Go map), the sorted scope list, an error, or the Go
runtime panic that dereferencing a nil token causes. -/
inductive PCSResult
  | panicked
  | failure (msg : String)
  | success (scopesInClaim : List String) (scopesInClaimList : List String)
deriving DecidableEq

/-- Lexicographic comparison of character lists by code point, the
order Go uses on (UTF-8) strings. -/
def charListLe : List Char → List Char → Bool
  | [], _ => true
  | _ :: _, [] => false
  | c :: cs, d :: ds =>
    if c.toNat < d.toNat then true
    else if d.toNat < c.toNat then false
    else charListLe cs ds

/-- Go string comparison. -/
def strLe (a b : String) : Bool := charListLe a.toList b.toList

/-- Insert a string into a sorted list of strings. -/
def insertSorted (s : String) : List String → List String
  | [] => [s]
  | x :: xs => if strLe s x then s :: x :: xs else x :: insertSorted s xs

/-- Ascending string sort, modelling Go sort.Strings. -/
def sortStrings (l : List String) : List String := l.foldr insertSorted []

/-- The loop of parseClaimScopes over validScopeClaimKeys: the first key
present in the claims with a non-nil value is selected; keys that are
absent, or present with a nil value, are skipped. -/
def findScopeClaim (m : List (String × GoVal)) : List String → Option GoVal
  | [] => none
  | k :: ks =>
    match m.lookup k with
    | some v => if v.isNull then findScopeClaim m ks else some v
    | none => findScopeClaim m ks

/-- The type switch of parseClaimScopes on the selected claim value: a
string yields its space-separated pieces, an array yields its string
elements (other elements are skipped), and any other shape is the
default case (an error). -/
def scopesFromVal : GoVal → Option (List String)
  | GoVal.str s => some (goSplit s ' ')
  | GoVal.arr elems =>
    some (elems.filterMap fun v =>
      match v with
      | GoVal.str x => some x
      | _ => none)
  | _ => none

/-- Processing of one selected claim value by parseClaimScopes: build the
scope set and the sorted scope list, or report the unsupported-format
error. -/
def processScopeVal (v : GoVal) : PCSResult :=
  match scopesFromVal v with
  | none => PCSResult.failure "unsupported scope format in incoming JWT claim"
  | some scopes => PCSResult.success scopes (sortStrings scopes)

/-- parseClaimScopes from jwt.go.  A nil token panics at the Claims field
access; claims of a shape other than jwt.MapClaims are an error; then
the scope/scopes lookup loop and the value type switch run. -/
def parseClaimScopes (token : Option RawToken) : PCSResult :=
  match token with
  | none => PCSResult.panicked
  | some t =>
    match t.claims with
    | TokenClaims.otherShape => PCSResult.failure "unsupport claims shape"
    | TokenClaims.mapClaims m =>
      match findScopeClaim m validScopeClaimKeys with
      | none => PCSResult.success [] []
      | some v => processScopeVal v

/-- The token location of a JWTSecurity scheme. -/
inductive SchemeLoc
  | header
  | query
  | other (loc : String)
deriving DecidableEq

/-- The goa.JWTSecurity scheme fields the middleware reads. -/
structure JWTSecurity where
  inLoc : SchemeLoc
  name : String
deriving DecidableEq

/-- The parts of an HTTP request the middleware reads: headers and query
parameters, with Go's absent-entry-reads-empty-string convention applied
at lookup. -/
structure Request where
  headers : List (String × String)
  query : List (String × String)
deriving DecidableEq

/-- req.Header.Get: the named header value, or the empty string. -/
def headerGet (req : Request) (name : String) : String :=
  (req.headers.lookup name).getD ""

/-- A goa error class: kind string and HTTP status. -/
structure ErrorClass where
  kind : String
  status : Nat
deriving DecidableEq

/-- ErrJWTError, built by goa.NewErrorClass with kind jwt_security_error
and HTTP status 401. -/
def errJWTErrorClass : ErrorClass := { kind := "jwt_security_error", status := 401 }

/-- The observable outcome of one middleware invocation: delegation to
the next handler (recording whether a validation hook wraps it and which
token the context carries), an error return from a goa error class with
its structured key/value fields, a plain (non-classed) error, or a Go
runtime panic. -/
inductive MWOutcome
  | handlerInvoked (hookWrapped : Bool) (jwtInContext : RawToken)
  | errorReturned (cls : ErrorClass) (msg : String) (keyvals : List (String × List String))
  | plainError (msg : String)
  | panicked

/-- An ErrJWTError invocation as an outcome. -/
def mkJWTError (msg : String) (keyvals : List (String × List String)) : MWOutcome :=
  MWOutcome.errorReturned errJWTErrorClass msg keyvals

/-- extractTokenFromHeader from jwt.go: the named header must be present
and non-empty and its lower-cased value must start with the seven
characters of the bearer marker; the token is then the second
space-separated chunk of the raw value. -/
def extractTokenFromHeader (schemeName : String) (req : Request) :
    Except MWOutcome (List Char) :=
  let val := headerGet req schemeName
  if val = "" then
    Except.error (mkJWTError ("missing header " ++ schemeName) [])
  else if ("bearer ".toList).isPrefixOf (lowerStr val.toList) then
    Except.ok ((goSplitChar ' ' val.toList).getD 1 [])
  else
    Except.error (mkJWTError "invalid or malformed header, expected Bearer JWT-token" [])

/-- extractTokenFromQueryParam from jwt.go. -/
def extractTokenFromQueryParam (schemeName : String) (req : Request) :
    Except MWOutcome (List Char) :=
  let tok := (req.query.lookup schemeName).getD ""
  if tok = "" then
    Except.error (mkJWTError ("missing parameter " ++ schemeName) [])
  else Except.ok tok.toList

/-- The token / err / validated triple threaded through the verification
phase of the handler returned by New. -/
structure VerifyState where
  token : Option RawToken
  err : Option String
  validated : Bool

/-- The verification phase of New (jwt.go lines 83-101): try the RSA
bucket when non-empty, then the ECDSA bucket when not yet validated,
then the HMAC bucket when not yet validated.  The HMAC branch does not
update validated (that assignment is commented out in the source); each
branch that runs overwrites token and err. -/
def verifyPhase (parseTok : List Char → Option RawToken)
    (rsaKeys ecdsaKeys : List Nat) (hmacKeys : List (List Nat))
    (incomingToken : List Char) : VerifyState :=
  let s0 : VerifyState := { token := none, err := none, validated := false }
  let s1 :=
    if rsaKeys ≠ [] then
      let r := validateRSAKeys parseTok rsaKeys "RS" incomingToken
      { token := r.1, err := r.2, validated := r.2.isNone }
    else s0
  let s2 :=
    if ¬ s1.validated ∧ ecdsaKeys ≠ [] then
      let r := validateECDSAKeys parseTok ecdsaKeys "ES" incomingToken
      { token := r.1, err := r.2, validated := r.2.isNone }
    else s1
  if ¬ s2.validated ∧ hmacKeys ≠ [] then
    let r := validateHMACKeys parseTok hmacKeys "HS" incomingToken
    { token := r.1, err := r.2, validated := s2.validated }
  else s2

/-- The per-request handler returned by New, as a function from the
request data to its observable outcome: extraction, verification, scope
parsing, the authorization loop over the required scopes from the
context, and delegation (through the optional validation hook) to the
next handler with the token in the context. -/
def jwtMiddleware (parseTok : List Char → Option RawToken)
    (validationKeys : ValidationKeys) (hasValidationFunc : Bool)
    (scheme : JWTSecurity) (req : Request) (requiredScopes : List String) :
    MWOutcome :=
  let part := partitionKeys validationKeys
  let extracted :=
    match scheme.inLoc with
    | SchemeLoc.header => extractTokenFromHeader scheme.name req
    | SchemeLoc.query => extractTokenFromQueryParam scheme.name req
    | SchemeLoc.other loc =>
      Except.error (MWOutcome.plainError ("security scheme with location not supported: " ++ loc))
  match extracted with
  | Except.error out => out
  | Except.ok incomingToken =>
    let st := verifyPhase parseTok part.1 part.2.1 part.2.2 incomingToken
    match st.err with
    | some e => mkJWTError ("JWT validation failed: " ++ e) []
    | none =>
      match parseClaimScopes st.token with
      | PCSResult.panicked => MWOutcome.panicked
      | PCSResult.failure msg => mkJWTError msg []
      | PCSResult.success scopesInClaim scopesInClaimList =>
        if requiredScopes.all fun s => scopesInClaim.contains s then
          match st.token with
          | some t => MWOutcome.handlerInvoked hasValidationFunc t
          | none => MWOutcome.panicked
        else
          mkJWTError "authorization failed: required scope or scopes not present in JWT claim"
            [("required", requiredScopes), ("scopes", scopesInClaimList)]

/-- The two-letter algorithm family a key's bucket pins: RS for RSA
keys, ES for ECDSA keys, HS for HMAC keys. -/
def bucketAlgo : VKey → String
  | VKey.rsa _ => "RS"
  | VKey.ecdsa _ => "ES"
  | VKey.hmac _ => "HS"

/-- The configured keys in the order the spec prescribes for
verification attempts: the RSA bucket, then the ECDSA bucket, then the
HMAC bucket, each bucket in its own order. -/
def orderedKeys (rsaKeys ecdsaKeys : List Nat) (hmacKeys : List (List Nat)) : List VKey :=
  rsaKeys.map VKey.rsa ++ ecdsaKeys.map VKey.ecdsa ++ hmacKeys.map VKey.hmac

/-- The parse result of the first key in the list whose verification
attempt (with its bucket's algorithm pin) succeeds, if any: the
first-success-wins reading of the spec. -/
def firstVerifyingKey (parseTok : List Char → Option RawToken) (tokenStr : List Char) :
    List VKey → Option RawToken
  | [] => none
  | k :: ks =>
    match jwtParseWith parseTok tokenStr (bucketAlgo k) k with
    | Except.ok t => some t
    | Except.error _ => firstVerifyingKey parseTok tokenStr ks

end GoaJwt

namespace GoaDSL

/-- An attribute declaration for a base-path parameter: its type and its
description.  Modelled from the spec: attribute = type, description,
default, validations; only type and description take part in the
base-param conflict rule. -/
structure AttrDecl where
  attrType : String
  description : String
deriving DecidableEq

/-- The API fields involved in the base-path rules.  Modelled from the
spec: the apidsl/dslengine implementation is not part of the provided
sources (only its tests are). -/
structure APIDef where
  name : String
  basePath : String
  params : List (String × AttrDecl)
deriving DecidableEq

/-- The resource fields involved in the base-path and media-type rules.
Modelled from the spec: the apidsl/dslengine implementation is not part
of the provided sources (only its tests are). -/
structure ResourceDef where
  name : String
  basePath : String
  params : List (String × AttrDecl)
  mediaType : String
deriving DecidableEq

/-- The DSL-phase errors the modelled checks can record. -/
inductive DSLError
  | paramConflict (param : String)
  | validationError (msg : String)
deriving DecidableEq

/-- The colon-named placeholders of a base path, one per path segment of
the form colon-name.  Modelled from the spec: a base path containing
such placeholders must have matching base params. -/
def extractWildcards (path : String) : List String :=
  (GoaJwt.goSplitChar '/' path.toList).filterMap fun seg =>
    match seg with
    | ':' :: rest => some rest.asString
    | _ => none

/-- Whether a resource base path is absolute.  Modelled from the spec: a
resource base path beginning with two slashes is absolute and overrides
the API base-path params instead of conflicting with them. -/
def isAbsolute (path : String) : Bool := ("//".toList).isPrefixOf path.toList

/-- Modelled from the spec: any placeholder present in both the API and
the resource base paths must carry identical type and description,
unless the resource base path is absolute; each violation records a
ParamConflict error. -/
def baseParamsConflicts (api : APIDef) (res : ResourceDef) : List DSLError :=
  if isAbsolute res.basePath then []
  else
    ((extractWildcards api.basePath).filter fun w =>
        (extractWildcards res.basePath).contains w &&
          !(api.params.lookup w == res.params.lookup w)).map DSLError.paramConflict

/-- Modelled from the spec: finalization of a resource defaults its
media type to text/plain when none was declared. -/
def resourceFinalize (res : ResourceDef) : ResourceDef :=
  { res with mediaType := if res.mediaType = "" then "text/plain" else res.mediaType }

/-- Modelled from the spec: validation of a resource requires a
non-empty name (a resource declared with no name is invalid). -/
def resourceValidate (res : ResourceDef) : List DSLError :=
  if res.name = "" then [DSLError.validationError "resource name is missing"] else []

/-- The resource produced by the Resource entry point with the given
name and no DSL body: every other field left at its zero value.
Modelled from the spec. -/
def mkResource (name : String) : ResourceDef :=
  { name := name, basePath := "", params := [], mediaType := "" }

/-- Modelled from the spec: the part of Run that touches one resource,
finalize (defaulting the media type) followed by validate. -/
def runResource (res : ResourceDef) : ResourceDef × List DSLError :=
  (resourceFinalize res, resourceValidate (resourceFinalize res))

/-- Modelled from the spec: the errors Run records for a design holding
one API and one resource, for the checks in scope here, base-param
conflicts plus resource validation. -/
def runErrors (api : APIDef) (res : ResourceDef) : List DSLError :=
  baseParamsConflicts api res ++ (runResource res).2

end GoaDSL

namespace GoaJwt

/-- A successful modelled jwt.Parse call pins down everything the
keyfunc and the library check: the token parses, its algorithm starts
with the bucket name, the key verifies the signature, and the date
checks pass. -/
theorem jwtParseWith_ok_iff (parseTok : List Char → Option RawToken) (tokenStr : List Char)
    (algo : String) (k : VKey) (t : RawToken) :
    jwtParseWith parseTok tokenStr algo k = Except.ok t ↔
      parseTok tokenStr = some t ∧ algo.toList.isPrefixOf t.alg.toList = true ∧
        t.sigKeys.contains k = true ∧ t.timeValid = true := by
  constructor
  · intro h
    unfold jwtParseWith at h
    cases hp : parseTok tokenStr with
    | none => rw [hp] at h; simp at h
    | some u =>
      rw [hp] at h
      dsimp only at h
      by_cases hb : algo.toList.isPrefixOf u.alg.toList = true
      · by_cases hc : (u.sigKeys.contains k && u.timeValid) = true
        · rw [if_pos hb, if_pos hc] at h
          injection h with h
          subst h
          rw [Bool.and_eq_true] at hc
          exact ⟨rfl, hb, hc.1, hc.2⟩
        · rw [if_pos hb, if_neg hc] at h
          simp at h
      · rw [if_neg hb] at h
        simp at h
  · rintro ⟨hp, hb, hc1, hc2⟩
    unfold jwtParseWith
    rw [hp]
    dsimp only
    rw [if_pos hb, if_pos (by rw [Bool.and_eq_true]; exact ⟨hc1, hc2⟩)]

/-- Unfolding lemma for firstVerifyingKey on an empty list. -/
theorem firstVerifyingKey_nil (parseTok : List Char → Option RawToken)
    (tokenStr : List Char) : firstVerifyingKey parseTok tokenStr [] = none := rfl

/-- Unfolding lemma for firstVerifyingKey on a cons cell. -/
theorem firstVerifyingKey_cons (parseTok : List Char → Option RawToken)
    (tokenStr : List Char) (k : VKey) (ks : List VKey) :
    firstVerifyingKey parseTok tokenStr (k :: ks) =
      match jwtParseWith parseTok tokenStr (bucketAlgo k) k with
      | Except.ok t => some t
      | Except.error _ => firstVerifyingKey parseTok tokenStr ks := rfl

/-- A nonempty key list is behind every successful firstVerifyingKey. -/
theorem firstVerifyingKey_ne_nil (parseTok : List Char → Option RawToken)
    (tokenStr : List Char) (keys : List VKey) (t : RawToken)
    (h : firstVerifyingKey parseTok tokenStr keys = some t) : keys ≠ [] := by
  intro h0
  subst h0
  simp [firstVerifyingKey] at h

/-- When the first verifying key exists and all keys carry the bucket
algorithm, the source loop returns exactly that first success. -/
theorem validateKeysLoop_first_success (parseTok : List Char → Option RawToken)
    (tokenStr : List Char) (algo : String) :
    ∀ keys : List VKey, (∀ k ∈ keys, bucketAlgo k = algo) →
      ∀ t, firstVerifyingKey parseTok tokenStr keys = some t →
        validateKeysLoop parseTok algo tokenStr keys = (some t, none) := by
  intro keys
  induction keys with
  | nil => intro _ t h; simp [firstVerifyingKey] at h
  | cons k ks ih =>
    intro hpre t hfst
    have hk : bucketAlgo k = algo := hpre k (by simp)
    unfold firstVerifyingKey at hfst
    rw [hk] at hfst
    unfold validateKeysLoop
    cases hp : jwtParseWith parseTok tokenStr algo k with
    | ok u =>
      rw [hp] at hfst
      simp at hfst
      subst hfst
      simp
    | error e =>
      rw [hp] at hfst
      simp at hfst
      cases ks with
      | nil => simp [firstVerifyingKey] at hfst
      | cons k2 ks2 =>
        simp only []
        exact ih (fun k2 hk2 => hpre k2 (List.mem_cons_of_mem _ hk2)) t hfst

/-- When no key verifies and the key list is nonempty, the source loop
falls through with an error. -/
theorem validateKeysLoop_first_none (parseTok : List Char → Option RawToken)
    (tokenStr : List Char) (algo : String) :
    ∀ keys : List VKey, (∀ k ∈ keys, bucketAlgo k = algo) →
      firstVerifyingKey parseTok tokenStr keys = none → keys ≠ [] →
        ∃ e, (validateKeysLoop parseTok algo tokenStr keys).2 = some e := by
  intro keys
  induction keys with
  | nil => intro _ _ h; exact absurd rfl h
  | cons k ks ih =>
    intro hpre hfst _
    have hk : bucketAlgo k = algo := hpre k (by simp)
    unfold firstVerifyingKey at hfst
    rw [hk] at hfst
    unfold validateKeysLoop
    cases hp : jwtParseWith parseTok tokenStr algo k with
    | ok u => rw [hp] at hfst; simp at hfst
    | error e =>
      rw [hp] at hfst
      simp at hfst
      cases ks with
      | nil => exact ⟨e, rfl⟩
      | cons k2 ks2 =>
        simp only []
        exact ih (fun k2 hk2 => hpre k2 (List.mem_cons_of_mem _ hk2)) hfst (by simp)

/-- firstVerifyingKey over an appended list: the left part wins when it
verifies, otherwise the right part is consulted. -/
theorem firstVerifyingKey_append (parseTok : List Char → Option RawToken)
    (tokenStr : List Char) (l1 l2 : List VKey) :
    firstVerifyingKey parseTok tokenStr (l1 ++ l2) =
      match firstVerifyingKey parseTok tokenStr l1 with
      | some t => some t
      | none => firstVerifyingKey parseTok tokenStr l2 := by
  induction l1 with
  | nil => simp [firstVerifyingKey_nil]
  | cons k ks ih =>
    simp only [List.cons_append, firstVerifyingKey_cons]
    cases jwtParseWith parseTok tokenStr (bucketAlgo k) k with
    | ok u => simp
    | error e => simpa using ih

/-- Every key in the RSA bucket pins algorithm family RS. -/
theorem bucketAlgo_map_rsa (l : List Nat) : ∀ k ∈ l.map VKey.rsa, bucketAlgo k = "RS" := by
  intro k hk
  simp [List.mem_map] at hk
  obtain ⟨i, _, rfl⟩ := hk
  rfl

/-- Every key in the ECDSA bucket pins algorithm family ES. -/
theorem bucketAlgo_map_ecdsa (l : List Nat) : ∀ k ∈ l.map VKey.ecdsa, bucketAlgo k = "ES" := by
  intro k hk
  simp [List.mem_map] at hk
  obtain ⟨i, _, rfl⟩ := hk
  rfl

/-- Every key in the HMAC bucket pins algorithm family HS. -/
theorem bucketAlgo_map_hmac (l : List (List Nat)) :
    ∀ k ∈ l.map VKey.hmac, bucketAlgo k = "HS" := by
  intro k hk
  simp [List.mem_map] at hk
  obtain ⟨i, _, rfl⟩ := hk
  rfl

/-- When some RSA-bucket key verifies the token, the verification phase
accepts with the first such success and sets validated. -/
theorem verifyPhase_rsa_success (parseTok : List Char → Option RawToken)
    (r e : List Nat) (h : List (List Nat)) (s : List Char) (t : RawToken)
    (hfr : firstVerifyingKey parseTok s (r.map VKey.rsa) = some t) :
    verifyPhase parseTok r e h s = { token := some t, err := none, validated := true } := by
  have hr : r ≠ [] := by
    intro hr0
    subst hr0
    simp [firstVerifyingKey_nil] at hfr
  have hloop : validateKeysLoop parseTok "RS" s (r.map VKey.rsa) = (some t, none) :=
    validateKeysLoop_first_success parseTok s "RS" (r.map VKey.rsa) (bucketAlgo_map_rsa r) t hfr
  simp [verifyPhase, validateRSAKeys, hr, hloop]

/-- When no RSA-bucket key verifies but some ECDSA-bucket key does, the
verification phase accepts with the first ECDSA success. -/
theorem verifyPhase_ecdsa_success (parseTok : List Char → Option RawToken)
    (r e : List Nat) (h : List (List Nat)) (s : List Char) (t : RawToken)
    (hfr : firstVerifyingKey parseTok s (r.map VKey.rsa) = none)
    (hfe : firstVerifyingKey parseTok s (e.map VKey.ecdsa) = some t) :
    verifyPhase parseTok r e h s = { token := some t, err := none, validated := true } := by
  have he : e ≠ [] := by
    intro he0
    subst he0
    simp [firstVerifyingKey_nil] at hfe
  have heloop : validateKeysLoop parseTok "ES" s (e.map VKey.ecdsa) = (some t, none) :=
    validateKeysLoop_first_success parseTok s "ES" (e.map VKey.ecdsa) (bucketAlgo_map_ecdsa e) t hfe
  by_cases hr : r = []
  · subst hr
    simp [verifyPhase, validateECDSAKeys, he, heloop]
  · obtain ⟨e1, he1⟩ :=
      validateKeysLoop_first_none parseTok s "RS" (r.map VKey.rsa) (bucketAlgo_map_rsa r) hfr
        (by simpa using hr)
    simp [verifyPhase, validateRSAKeys, validateECDSAKeys, hr, he, he1, heloop]

/-- When neither the RSA nor the ECDSA bucket verifies but some
HMAC-bucket key does, the verification phase accepts with the first
HMAC success; validated stays false because the source does not set it
in the HMAC branch. -/
theorem verifyPhase_hmac_success (parseTok : List Char → Option RawToken)
    (r e : List Nat) (h : List (List Nat)) (s : List Char) (t : RawToken)
    (hfr : firstVerifyingKey parseTok s (r.map VKey.rsa) = none)
    (hfe : firstVerifyingKey parseTok s (e.map VKey.ecdsa) = none)
    (hfh : firstVerifyingKey parseTok s (h.map VKey.hmac) = some t) :
    verifyPhase parseTok r e h s = { token := some t, err := none, validated := false } := by
  have hh : h ≠ [] := by
    intro hh0
    subst hh0
    simp [firstVerifyingKey_nil] at hfh
  have hhloop : validateKeysLoop parseTok "HS" s (h.map VKey.hmac) = (some t, none) :=
    validateKeysLoop_first_success parseTok s "HS" (h.map VKey.hmac) (bucketAlgo_map_hmac h) t hfh
  by_cases hr : r = [] <;> by_cases he : e = []
  · subst hr; subst he
    simp [verifyPhase, validateHMACKeys, hh, hhloop]
  · subst hr
    obtain ⟨e2, he2⟩ :=
      validateKeysLoop_first_none parseTok s "ES" (e.map VKey.ecdsa) (bucketAlgo_map_ecdsa e) hfe
        (by simpa using he)
    simp [verifyPhase, validateECDSAKeys, validateHMACKeys, he, he2, hh, hhloop]
  · subst he
    obtain ⟨e1, he1⟩ :=
      validateKeysLoop_first_none parseTok s "RS" (r.map VKey.rsa) (bucketAlgo_map_rsa r) hfr
        (by simpa using hr)
    simp [verifyPhase, validateRSAKeys, validateHMACKeys, hr, he1, hh, hhloop]
  · obtain ⟨e1, he1⟩ :=
      validateKeysLoop_first_none parseTok s "RS" (r.map VKey.rsa) (bucketAlgo_map_rsa r) hfr
        (by simpa using hr)
    obtain ⟨e2, he2⟩ :=
      validateKeysLoop_first_none parseTok s "ES" (e.map VKey.ecdsa) (bucketAlgo_map_ecdsa e) hfe
        (by simpa using he)
    simp [verifyPhase, validateRSAKeys, validateECDSAKeys, validateHMACKeys,
      hr, he, he1, he2, hh, hhloop]

/-- When no configured key verifies and at least one bucket is
non-empty, the verification phase ends with a pending error. -/
theorem verifyPhase_all_fail (parseTok : List Char → Option RawToken)
    (r e : List Nat) (h : List (List Nat)) (s : List Char)
    (hfr : firstVerifyingKey parseTok s (r.map VKey.rsa) = none)
    (hfe : firstVerifyingKey parseTok s (e.map VKey.ecdsa) = none)
    (hfh : firstVerifyingKey parseTok s (h.map VKey.hmac) = none)
    (hne : ¬(r = [] ∧ e = [] ∧ h = [])) :
    ∃ msg, (verifyPhase parseTok r e h s).err = some msg := by
  by_cases hr : r = [] <;> by_cases he : e = [] <;> by_cases hh : h = []
  · exact absurd ⟨hr, he, hh⟩ hne
  · subst hr; subst he
    obtain ⟨e3, he3⟩ :=
      validateKeysLoop_first_none parseTok s "HS" (h.map VKey.hmac) (bucketAlgo_map_hmac h) hfh
        (by simpa using hh)
    exact ⟨e3, by simp [verifyPhase, validateHMACKeys, hh, he3]⟩
  · subst hr; subst hh
    obtain ⟨e2, he2⟩ :=
      validateKeysLoop_first_none parseTok s "ES" (e.map VKey.ecdsa) (bucketAlgo_map_ecdsa e) hfe
        (by simpa using he)
    exact ⟨e2, by simp [verifyPhase, validateECDSAKeys, he, he2]⟩
  · subst hr
    obtain ⟨e2, he2⟩ :=
      validateKeysLoop_first_none parseTok s "ES" (e.map VKey.ecdsa) (bucketAlgo_map_ecdsa e) hfe
        (by simpa using he)
    obtain ⟨e3, he3⟩ :=
      validateKeysLoop_first_none parseTok s "HS" (h.map VKey.hmac) (bucketAlgo_map_hmac h) hfh
        (by simpa using hh)
    exact ⟨e3, by simp [verifyPhase, validateECDSAKeys, validateHMACKeys, he, hh, he2, he3]⟩
  · subst he; subst hh
    obtain ⟨e1, he1⟩ :=
      validateKeysLoop_first_none parseTok s "RS" (r.map VKey.rsa) (bucketAlgo_map_rsa r) hfr
        (by simpa using hr)
    exact ⟨e1, by simp [verifyPhase, validateRSAKeys, hr, he1]⟩
  · subst he
    obtain ⟨e1, he1⟩ :=
      validateKeysLoop_first_none parseTok s "RS" (r.map VKey.rsa) (bucketAlgo_map_rsa r) hfr
        (by simpa using hr)
    obtain ⟨e3, he3⟩ :=
      validateKeysLoop_first_none parseTok s "HS" (h.map VKey.hmac) (bucketAlgo_map_hmac h) hfh
        (by simpa using hh)
    exact ⟨e3, by simp [verifyPhase, validateRSAKeys, validateHMACKeys, hr, hh, he1, he3]⟩
  · subst hh
    obtain ⟨e1, he1⟩ :=
      validateKeysLoop_first_none parseTok s "RS" (r.map VKey.rsa) (bucketAlgo_map_rsa r) hfr
        (by simpa using hr)
    obtain ⟨e2, he2⟩ :=
      validateKeysLoop_first_none parseTok s "ES" (e.map VKey.ecdsa) (bucketAlgo_map_ecdsa e) hfe
        (by simpa using he)
    exact ⟨e2, by simp [verifyPhase, validateRSAKeys, validateECDSAKeys, hr, he, he1, he2]⟩
  · obtain ⟨e1, he1⟩ :=
      validateKeysLoop_first_none parseTok s "RS" (r.map VKey.rsa) (bucketAlgo_map_rsa r) hfr
        (by simpa using hr)
    obtain ⟨e2, he2⟩ :=
      validateKeysLoop_first_none parseTok s "ES" (e.map VKey.ecdsa) (bucketAlgo_map_ecdsa e) hfe
        (by simpa using he)
    obtain ⟨e3, he3⟩ :=
      validateKeysLoop_first_none parseTok s "HS" (h.map VKey.hmac) (bucketAlgo_map_hmac h) hfh
        (by simpa using hh)
    exact ⟨e3, by simp [verifyPhase, validateRSAKeys, validateECDSAKeys, validateHMACKeys,
      hr, he, hh, he1, he2, he3]⟩

end GoaJwt

namespace GoaJwt

/-- C1: when the validationKeys value given to New has a type that
partitionKeys does not recognise, every request whose token extraction
succeeds reaches parseClaimScopes with a nil token and the middleware
panics on the nil dereference; the next handler is never invoked, but
no error is returned either, contrary to the claim that the middleware
rejects the request with an error. -/
theorem unknownKeys_panics_never_next (parseTok : List Char → Option RawToken)
    (hook : Bool) (scheme : JWTSecurity) (req : Request) (required : List String)
    (tok : List Char)
    (hin : scheme.inLoc = SchemeLoc.header)
    (hex : extractTokenFromHeader scheme.name req = Except.ok tok) :
    jwtMiddleware parseTok ValidationKeys.unknownType hook scheme req required =
      MWOutcome.panicked ∧
    (∀ b t, jwtMiddleware parseTok ValidationKeys.unknownType hook scheme req required ≠
      MWOutcome.handlerInvoked b t) ∧
    (∀ cls msg kv, jwtMiddleware parseTok ValidationKeys.unknownType hook scheme req required ≠
      MWOutcome.errorReturned cls msg kv) := by
  have hv : verifyPhase parseTok [] [] [] tok =
      { token := none, err := none, validated := false } := rfl
  refine ⟨?_, ?_, ?_⟩
  · simp [jwtMiddleware, hin, hex, partitionKeys, hv, parseClaimScopes]
  · intro b t
    simp [jwtMiddleware, hin, hex, partitionKeys, hv, parseClaimScopes]
  · intro cls msg kv
    simp [jwtMiddleware, hin, hex, partitionKeys, hv, parseClaimScopes]

/-- C1 witness: a concrete request with a well-formed bearer token and
an unrecognised key type makes the middleware panic. -/
theorem unknownKeys_panics_never_next_witness :
    jwtMiddleware (fun _ => none) ValidationKeys.unknownType false
      { inLoc := SchemeLoc.header, name := "Authorization" }
      { headers := [("Authorization", "Bearer x.y.z")], query := [] }
      ["api:read"] = MWOutcome.panicked :=
  (unknownKeys_panics_never_next (fun _ => none) false
    { inLoc := SchemeLoc.header, name := "Authorization" }
    { headers := [("Authorization", "Bearer x.y.z")], query := [] }
    ["api:read"] ("x.y.z".toList) rfl rfl).1

/-- C5: evaluation of parseClaimScopes on a token whose scope claim is
the empty string.  Contrary to the claim (and to the doc comment of
parseClaimScopes in the source), the result is not an empty scope set:
Go strings.Split of the empty string yields one empty-string element,
so the scope set holds the empty string and the scope list is a
one-element list. -/
theorem parseClaimScopes_empty_string_eval :
    parseClaimScopes (some
      { alg := "HS256", sigKeys := [],
        claims := TokenClaims.mapClaims [("scope", GoVal.str "")], timeValid := true }) =
      PCSResult.success [""] [""] ∧
    ([""] : List String) ≠ [] ∧ ("" ∈ ([""] : List String)) := by
  refine ⟨rfl, by simp, by simp⟩

end GoaJwt

namespace GoaJwt

/-- C7 counterexample: a scope claim holding a list of numbers is
neither a string nor a list of strings, yet parseClaimScopes does not
fail: the Go type switch matches any array and silently skips
non-string elements, so the result is a successful empty scope set. -/
theorem parseClaimScopes_number_list_counterexample :
    parseClaimScopes (some
      { alg := "HS256", sigKeys := [],
        claims := TokenClaims.mapClaims [("scope", GoVal.arr [GoVal.num 1, GoVal.num 2])],
        timeValid := true }) = PCSResult.success [] [] ∧
    ∀ msg, parseClaimScopes (some
      { alg := "HS256", sigKeys := [],
        claims := TokenClaims.mapClaims [("scope", GoVal.arr [GoVal.num 1, GoVal.num 2])],
        timeValid := true }) ≠ PCSResult.failure msg := by
  refine ⟨rfl, ?_⟩
  intro msg
  rw [show parseClaimScopes (some
      { alg := "HS256", sigKeys := [],
        claims := TokenClaims.mapClaims [("scope", GoVal.arr [GoVal.num 1, GoVal.num 2])],
        timeValid := true }) = PCSResult.success [] [] from rfl]
  simp

/-- C7 amended: scope parsing picks the first of the claim keys scope,
scopes that is present with a non-null value; the result then depends
only on that value (the other key is never consulted); a non-null value
that is neither a string nor a list is the switch default and fails. -/
theorem parseClaimScopes_key_order (t : RawToken) (m : List (String × GoVal)) (v : GoVal)
    (hc : t.claims = TokenClaims.mapClaims m) :
    (m.lookup "scope" = some v → v.isNull = false →
      parseClaimScopes (some t) = processScopeVal v) ∧
    ((m.lookup "scope" = none ∨ m.lookup "scope" = some GoVal.null) →
      m.lookup "scopes" = some v → v.isNull = false →
      parseClaimScopes (some t) = processScopeVal v) ∧
    (m.lookup "scope" = some v → v.isNull = false → scopesFromVal v = none →
      parseClaimScopes (some t) =
        PCSResult.failure "unsupported scope format in incoming JWT claim") := by
  refine ⟨?_, ?_, ?_⟩
  · intro h1 hnn
    simp [parseClaimScopes, hc, findScopeClaim, validScopeClaimKeys, h1, hnn]
  · intro h1 h2 hnn
    cases h1 with
    | inl h1 => simp [parseClaimScopes, hc, findScopeClaim, validScopeClaimKeys, h1, h2, hnn]
    | inr h1 =>
      simp [parseClaimScopes, hc, findScopeClaim, validScopeClaimKeys, h1, h2, hnn,
        show GoVal.null.isNull = true from rfl]
  · intro h1 hnn hsv
    simp [parseClaimScopes, hc, findScopeClaim, validScopeClaimKeys, h1, hnn,
      processScopeVal, hsv]

/-- C7 witness: with claims holding both a non-null scope entry and a
scopes entry, the parse result is determined by the scope entry alone. -/
theorem parseClaimScopes_key_order_witness :
    parseClaimScopes (some
      { alg := "HS256", sigKeys := [],
        claims := TokenClaims.mapClaims
          [("scope", GoVal.str "api:read"), ("scopes", GoVal.str "other")],
        timeValid := true }) = processScopeVal (GoVal.str "api:read") :=
  (parseClaimScopes_key_order
    { alg := "HS256", sigKeys := [],
      claims := TokenClaims.mapClaims
        [("scope", GoVal.str "api:read"), ("scopes", GoVal.str "other")],
      timeValid := true }
    [("scope", GoVal.str "api:read"), ("scopes", GoVal.str "other")]
    (GoVal.str "api:read") rfl).1 rfl rfl

/-- C10: a verified token whose claims mapping has neither a scope nor
a scopes key parses to an empty scope set without error, and the
middleware then invokes the next handler exactly when the required
scope list in the context is empty. -/
theorem no_scope_claim_admits_iff_no_required (parseTok : List Char → Option RawToken)
    (ks : ValidationKeys) (hook : Bool) (scheme : JWTSecurity) (req : Request)
    (required : List String) (tok : List Char) (t : RawToken) (b : Bool)
    (m : List (String × GoVal))
    (hin : scheme.inLoc = SchemeLoc.header)
    (hex : extractTokenFromHeader scheme.name req = Except.ok tok)
    (hver : verifyPhase parseTok (partitionKeys ks).1 (partitionKeys ks).2.1
        (partitionKeys ks).2.2 tok = { token := some t, err := none, validated := b })
    (hc : t.claims = TokenClaims.mapClaims m)
    (h1 : m.lookup "scope" = none) (h2 : m.lookup "scopes" = none) :
    parseClaimScopes (some t) = PCSResult.success [] [] ∧
    (jwtMiddleware parseTok ks hook scheme req required = MWOutcome.handlerInvoked hook t ↔
      required = []) := by
  have hp : parseClaimScopes (some t) = PCSResult.success [] [] := by
    simp [parseClaimScopes, hc, findScopeClaim, validScopeClaimKeys, h1, h2]
  refine ⟨hp, ?_⟩
  constructor
  · intro hmw
    cases required with
    | nil => rfl
    | cons a as =>
      simp [jwtMiddleware, hin, hex, hver, hp, mkJWTError] at hmw
  · intro h
    subst h
    simp [jwtMiddleware, hin, hex, hver, hp]

/-- C10 witness: a token with unrelated claims only, an empty required
list admits, at a concrete input. -/
theorem no_scope_claim_admits_iff_no_required_witness :
    jwtMiddleware
      (fun l => if l = "x.y.z".toList then
        some { alg := "HS256", sigKeys := [VKey.hmac (strBytes "secret")],
               claims := TokenClaims.mapClaims [("sub", GoVal.str "u1")], timeValid := true }
       else none)
      (ValidationKeys.hmacString "secret") false
      { inLoc := SchemeLoc.header, name := "Authorization" }
      { headers := [("Authorization", "Bearer x.y.z")], query := [] } [] =
      MWOutcome.handlerInvoked false
        { alg := "HS256", sigKeys := [VKey.hmac (strBytes "secret")],
          claims := TokenClaims.mapClaims [("sub", GoVal.str "u1")], timeValid := true } :=
  ((no_scope_claim_admits_iff_no_required
    (fun l => if l = "x.y.z".toList then
      some { alg := "HS256", sigKeys := [VKey.hmac (strBytes "secret")],
             claims := TokenClaims.mapClaims [("sub", GoVal.str "u1")], timeValid := true }
     else none)
    (ValidationKeys.hmacString "secret") false
    { inLoc := SchemeLoc.header, name := "Authorization" }
    { headers := [("Authorization", "Bearer x.y.z")], query := [] } []
    ("x.y.z".toList)
    { alg := "HS256", sigKeys := [VKey.hmac (strBytes "secret")],
      claims := TokenClaims.mapClaims [("sub", GoVal.str "u1")], timeValid := true }
    false [("sub", GoVal.str "u1")] rfl rfl rfl rfl rfl rfl).2).2 rfl

end GoaJwt

namespace GoaJwt

/-- C2: after successful extraction, verification and scope parsing,
the middleware invokes the next handler when every required scope from
the context is in the parsed scope set, and otherwise returns the
401 jwt_security_error carrying the structured fields required (the
required scopes) and scopes (the presented scope list). -/
theorem authorize_required_scopes (parseTok : List Char → Option RawToken)
    (ks : ValidationKeys) (hook : Bool) (scheme : JWTSecurity) (req : Request)
    (required : List String) (tok : List Char) (t : RawToken) (b : Bool)
    (sset slist : List String)
    (hin : scheme.inLoc = SchemeLoc.header)
    (hex : extractTokenFromHeader scheme.name req = Except.ok tok)
    (hver : verifyPhase parseTok (partitionKeys ks).1 (partitionKeys ks).2.1
        (partitionKeys ks).2.2 tok = { token := some t, err := none, validated := b })
    (hpc : parseClaimScopes (some t) = PCSResult.success sset slist) :
    ((∀ s ∈ required, s ∈ sset) →
      jwtMiddleware parseTok ks hook scheme req required = MWOutcome.handlerInvoked hook t) ∧
    ((∃ s ∈ required, s ∉ sset) →
      jwtMiddleware parseTok ks hook scheme req required =
        MWOutcome.errorReturned errJWTErrorClass
          "authorization failed: required scope or scopes not present in JWT claim"
          [("required", required), ("scopes", slist)]) := by
  constructor
  · intro hall
    simp only [jwtMiddleware, hin, hex, hver, hpc, mkJWTError]
    rw [if_pos]
    rw [List.all_eq_true]
    intro x hx
    simpa using hall x hx
  · rintro ⟨s0, hs0, hns0⟩
    simp only [jwtMiddleware, hin, hex, hver, hpc, mkJWTError]
    rw [if_neg]
    rw [List.all_eq_true]
    intro hcn
    exact hns0 (by simpa using hcn s0 hs0)

/-- C2 witness: a concrete HMAC-verified token with scopes api:read and
api:write admits a request requiring api:read. -/
theorem authorize_required_scopes_witness :
    jwtMiddleware
      (fun l => if l = "x.y.z".toList then
        some { alg := "HS256", sigKeys := [VKey.hmac (strBytes "secret")],
               claims := TokenClaims.mapClaims [("scope", GoVal.str "api:read api:write")],
               timeValid := true }
       else none)
      (ValidationKeys.hmacString "secret") false
      { inLoc := SchemeLoc.header, name := "Authorization" }
      { headers := [("Authorization", "Bearer x.y.z")], query := [] } ["api:read"] =
      MWOutcome.handlerInvoked false
        { alg := "HS256", sigKeys := [VKey.hmac (strBytes "secret")],
          claims := TokenClaims.mapClaims [("scope", GoVal.str "api:read api:write")],
          timeValid := true } :=
  (authorize_required_scopes
    (fun l => if l = "x.y.z".toList then
      some { alg := "HS256", sigKeys := [VKey.hmac (strBytes "secret")],
             claims := TokenClaims.mapClaims [("scope", GoVal.str "api:read api:write")],
             timeValid := true }
     else none)
    (ValidationKeys.hmacString "secret") false
    { inLoc := SchemeLoc.header, name := "Authorization" }
    { headers := [("Authorization", "Bearer x.y.z")], query := [] } ["api:read"]
    ("x.y.z".toList)
    { alg := "HS256", sigKeys := [VKey.hmac (strBytes "secret")],
      claims := TokenClaims.mapClaims [("scope", GoVal.str "api:read api:write")],
      timeValid := true }
    false ["api:read", "api:write"] ["api:read", "api:write"]
    rfl rfl rfl rfl).1 (by decide)

end GoaJwt

namespace GoaJwt

/-- A successful validateKeysLoop run comes from a successful jwt.Parse
call on one of its keys. -/
theorem validateKeysLoop_success_mem (parseTok : List Char → Option RawToken)
    (algo : String) (s : List Char) :
    ∀ (keys : List VKey) (t : RawToken),
      validateKeysLoop parseTok algo s keys = (some t, none) →
      ∃ k ∈ keys, jwtParseWith parseTok s algo k = Except.ok t := by
  intro keys
  induction keys with
  | nil => intro t h; simp [validateKeysLoop] at h
  | cons k ks ih =>
    intro t h
    unfold validateKeysLoop at h
    cases hp : jwtParseWith parseTok s algo k with
    | ok u =>
      rw [hp] at h
      simp at h
      exact ⟨k, by simp, by rw [hp, h]⟩
    | error e =>
      rw [hp] at h
      cases ks with
      | nil => simp at h
      | cons k2 ks2 =>
        obtain ⟨k3, hk3, hok⟩ := ih t h
        exact ⟨k3, List.mem_cons_of_mem _ hk3, hok⟩

/-- When the parsed token's algorithm does not start with the bucket
name, every key of the bucket fails, so a nonempty loop ends in error. -/
theorem validateKeysLoop_wrong_algo (parseTok : List Char → Option RawToken)
    (algo : String) (s : List Char) (t : RawToken)
    (hpt : parseTok s = some t)
    (hpre : algo.toList.isPrefixOf t.alg.toList = false) :
    ∀ keys : List VKey, keys ≠ [] → (validateKeysLoop parseTok algo s keys).2 ≠ none := by
  have hperr : ∀ k : VKey,
      jwtParseWith parseTok s algo k = Except.error "Unexpected signing method" := by
    intro k
    unfold jwtParseWith
    rw [hpt]
    dsimp only
    rw [if_neg (by rw [hpre]; exact Bool.false_ne_true)]
  intro keys
  induction keys with
  | nil => intro h; exact absurd rfl h
  | cons k ks ih =>
    intro _
    unfold validateKeysLoop
    rw [hperr k]
    cases ks with
    | nil => simp
    | cons k2 ks2 => exact ih (by simp)

/-- C4: each bucket validator accepts a token only when its declared
algorithm starts with the algorithm family the validator pins, and in
particular a token declaring HS256 is always rejected by the RSA
validator, whatever RSA keys are configured. -/
theorem validators_pin_algorithm (parseTok : List Char → Option RawToken) (s : List Char) :
    (∀ (keys : List Nat) (algo : String) (t : RawToken),
      validateRSAKeys parseTok keys algo s = (some t, none) →
      algo.toList.isPrefixOf t.alg.toList = true) ∧
    (∀ (keys : List Nat) (algo : String) (t : RawToken),
      validateECDSAKeys parseTok keys algo s = (some t, none) →
      algo.toList.isPrefixOf t.alg.toList = true) ∧
    (∀ (keys : List (List Nat)) (algo : String) (t : RawToken),
      validateHMACKeys parseTok keys algo s = (some t, none) →
      algo.toList.isPrefixOf t.alg.toList = true) ∧
    (∀ (keys : List Nat) (t : RawToken), keys ≠ [] → parseTok s = some t →
      t.alg = "HS256" → (validateRSAKeys parseTok keys "RS" s).2 ≠ none) := by
  refine ⟨?_, ?_, ?_, ?_⟩
  · intro keys algo t h
    obtain ⟨k, _, hok⟩ := validateKeysLoop_success_mem parseTok algo s (keys.map VKey.rsa) t h
    exact ((jwtParseWith_ok_iff parseTok s algo k t).1 hok).2.1
  · intro keys algo t h
    obtain ⟨k, _, hok⟩ := validateKeysLoop_success_mem parseTok algo s (keys.map VKey.ecdsa) t h
    exact ((jwtParseWith_ok_iff parseTok s algo k t).1 hok).2.1
  · intro keys algo t h
    obtain ⟨k, _, hok⟩ := validateKeysLoop_success_mem parseTok algo s (keys.map VKey.hmac) t h
    exact ((jwtParseWith_ok_iff parseTok s algo k t).1 hok).2.1
  · intro keys t hk hpt halg
    have hpre : ("RS".toList).isPrefixOf t.alg.toList = false := by
      rw [halg]
      decide
    exact validateKeysLoop_wrong_algo parseTok "RS" s t hpt hpre (keys.map VKey.rsa)
      (by simpa using hk)

/-- C4 witness: a concrete HS256 token is rejected by the RSA validator
holding one RSA key. -/
theorem validators_pin_algorithm_witness :
    (validateRSAKeys
      (fun l => if l = "x.y.z".toList then
        some { alg := "HS256", sigKeys := [VKey.rsa 7],
               claims := TokenClaims.otherShape, timeValid := true }
       else none)
      [7] "RS" ("x.y.z".toList)).2 ≠ none :=
  (validators_pin_algorithm
    (fun l => if l = "x.y.z".toList then
      some { alg := "HS256", sigKeys := [VKey.rsa 7],
             claims := TokenClaims.otherShape, timeValid := true }
     else none)
    ("x.y.z".toList)).2.2.2 [7]
    { alg := "HS256", sigKeys := [VKey.rsa 7],
      claims := TokenClaims.otherShape, timeValid := true }
    (by simp) rfl rfl

end GoaJwt

namespace GoaJwt

/-- firstVerifyingKey succeeds exactly when some key in the list has a
successful verification attempt. -/
theorem firstVerifyingKey_some_iff (parseTok : List Char → Option RawToken)
    (s : List Char) :
    ∀ keys : List VKey,
      (∃ t, firstVerifyingKey parseTok s keys = some t) ↔
      ∃ k ∈ keys, ∃ t, jwtParseWith parseTok s (bucketAlgo k) k = Except.ok t := by
  intro keys
  induction keys with
  | nil => simp [firstVerifyingKey_nil]
  | cons k ks ih =>
    rw [firstVerifyingKey_cons]
    cases hp : jwtParseWith parseTok s (bucketAlgo k) k with
    | ok u =>
      simp only []
      constructor
      · intro _
        exact ⟨k, by simp, u, hp⟩
      · intro _
        exact ⟨u, rfl⟩
    | error e =>
      simp only []
      rw [ih]
      constructor
      · rintro ⟨k2, hk2, t2, hok2⟩
        exact ⟨k2, List.mem_cons_of_mem _ hk2, t2, hok2⟩
      · rintro ⟨k2, hk2, t2, hok2⟩
        rcases List.mem_cons.1 hk2 with hkk | hkk
        · subst hkk
          rw [hp] at hok2
          exact absurd hok2 (by simp)
        · exact ⟨k2, hkk, t2, hok2⟩

/-- C3: with a nonempty configured key set, verification is equivalent
to trying the keys in the order RSA bucket, ECDSA bucket, HMAC bucket,
each bucket in order, accepting the first successful attempt: success
of some configured key is exactly success of firstVerifyingKey over the
ordered keys, the verification phase then carries the first success
with no pending error, and when no configured key verifies the phase
ends in error and the middleware returns a 401 jwt_security_error. -/
theorem verification_order_first_success (parseTok : List Char → Option RawToken)
    (ks : ValidationKeys) (hook : Bool) (scheme : JWTSecurity) (req : Request)
    (required : List String) (s : List Char)
    (hin : scheme.inLoc = SchemeLoc.header)
    (hex : extractTokenFromHeader scheme.name req = Except.ok s)
    (hne : orderedKeys (partitionKeys ks).1 (partitionKeys ks).2.1
      (partitionKeys ks).2.2 ≠ []) :
    ((∃ t, firstVerifyingKey parseTok s (orderedKeys (partitionKeys ks).1
        (partitionKeys ks).2.1 (partitionKeys ks).2.2) = some t) ↔
      ∃ k ∈ orderedKeys (partitionKeys ks).1 (partitionKeys ks).2.1 (partitionKeys ks).2.2,
        ∃ t, jwtParseWith parseTok s (bucketAlgo k) k = Except.ok t) ∧
    (∀ t, firstVerifyingKey parseTok s (orderedKeys (partitionKeys ks).1
        (partitionKeys ks).2.1 (partitionKeys ks).2.2) = some t →
      (verifyPhase parseTok (partitionKeys ks).1 (partitionKeys ks).2.1
        (partitionKeys ks).2.2 s).token = some t ∧
      (verifyPhase parseTok (partitionKeys ks).1 (partitionKeys ks).2.1
        (partitionKeys ks).2.2 s).err = none) ∧
    (firstVerifyingKey parseTok s (orderedKeys (partitionKeys ks).1
        (partitionKeys ks).2.1 (partitionKeys ks).2.2) = none →
      (∃ msg, (verifyPhase parseTok (partitionKeys ks).1 (partitionKeys ks).2.1
        (partitionKeys ks).2.2 s).err = some msg) ∧
      ∃ msg, jwtMiddleware parseTok ks hook scheme req required =
        MWOutcome.errorReturned errJWTErrorClass msg []) := by
  refine ⟨firstVerifyingKey_some_iff parseTok s _, ?_, ?_⟩
  · intro t hf
    rw [orderedKeys, firstVerifyingKey_append, firstVerifyingKey_append] at hf
    cases hfr : firstVerifyingKey parseTok s ((partitionKeys ks).1.map VKey.rsa) with
    | some t0 =>
      rw [hfr] at hf
      simp only [] at hf
      injection hf with hf
      subst hf
      rw [verifyPhase_rsa_success parseTok _ _ _ _ t0 hfr]
      exact ⟨rfl, rfl⟩
    | none =>
      rw [hfr] at hf
      simp only [] at hf
      cases hfe : firstVerifyingKey parseTok s ((partitionKeys ks).2.1.map VKey.ecdsa) with
      | some t0 =>
        rw [hfe] at hf
        simp only [] at hf
        injection hf with hf
        subst hf
        rw [verifyPhase_ecdsa_success parseTok _ _ _ _ t0 hfr hfe]
        exact ⟨rfl, rfl⟩
      | none =>
        rw [hfe] at hf
        simp only [] at hf
        rw [verifyPhase_hmac_success parseTok _ _ _ _ t hfr hfe hf]
        exact ⟨rfl, rfl⟩
  · intro hf
    rw [orderedKeys, firstVerifyingKey_append, firstVerifyingKey_append] at hf
    cases hfr : firstVerifyingKey parseTok s ((partitionKeys ks).1.map VKey.rsa) with
    | some t0 => rw [hfr] at hf; simp at hf
    | none =>
      rw [hfr] at hf
      simp only [] at hf
      cases hfe : firstVerifyingKey parseTok s ((partitionKeys ks).2.1.map VKey.ecdsa) with
      | some t0 => rw [hfe] at hf; simp at hf
      | none =>
        rw [hfe] at hf
        simp only [] at hf
        have hnetriple : ¬((partitionKeys ks).1 = [] ∧ (partitionKeys ks).2.1 = [] ∧
            (partitionKeys ks).2.2 = []) := by
          rintro ⟨hr, he, hh⟩
          exact hne (by simp [orderedKeys, hr, he, hh])
        obtain ⟨msg, hmsg⟩ :=
          verifyPhase_all_fail parseTok (partitionKeys ks).1 (partitionKeys ks).2.1
            (partitionKeys ks).2.2 s hfr hfe hf hnetriple
        refine ⟨⟨msg, hmsg⟩, "JWT validation failed: " ++ msg, ?_⟩
        simp [jwtMiddleware, hin, hex, hmsg, mkJWTError]

/-- C3 witness: with one configured HMAC key, the verification phase
accepts a token signed with that key and carries it with no error. -/
theorem verification_order_first_success_witness :
    (verifyPhase
      (fun l => if l = "x.y.z".toList then
        some { alg := "HS256", sigKeys := [VKey.hmac (strBytes "secret")],
               claims := TokenClaims.otherShape, timeValid := true }
       else none)
      (partitionKeys (ValidationKeys.hmacString "secret")).1
      (partitionKeys (ValidationKeys.hmacString "secret")).2.1
      (partitionKeys (ValidationKeys.hmacString "secret")).2.2 ("x.y.z".toList)).token =
      some { alg := "HS256", sigKeys := [VKey.hmac (strBytes "secret")],
             claims := TokenClaims.otherShape, timeValid := true } ∧
    (verifyPhase
      (fun l => if l = "x.y.z".toList then
        some { alg := "HS256", sigKeys := [VKey.hmac (strBytes "secret")],
               claims := TokenClaims.otherShape, timeValid := true }
       else none)
      (partitionKeys (ValidationKeys.hmacString "secret")).1
      (partitionKeys (ValidationKeys.hmacString "secret")).2.1
      (partitionKeys (ValidationKeys.hmacString "secret")).2.2 ("x.y.z".toList)).err = none :=
  ((verification_order_first_success
    (fun l => if l = "x.y.z".toList then
      some { alg := "HS256", sigKeys := [VKey.hmac (strBytes "secret")],
             claims := TokenClaims.otherShape, timeValid := true }
     else none)
    (ValidationKeys.hmacString "secret") false
    { inLoc := SchemeLoc.header, name := "Authorization" }
    { headers := [("Authorization", "Bearer x.y.z")], query := [] }
    ["api:read"] ("x.y.z".toList) rfl rfl (by simp [orderedKeys, partitionKeys])).2.1
    { alg := "HS256", sigKeys := [VKey.hmac (strBytes "secret")],
      claims := TokenClaims.otherShape, timeValid := true } rfl)

end GoaJwt

namespace GoaJwt

/-- The head of a Go split is the longest separator-free head of the
input. -/
theorem goSplitChar_headD (sep : Char) :
    ∀ l : List Char, (goSplitChar sep l).headD [] = l.takeWhile (fun c => c != sep) := by
  intro l
  induction l with
  | nil => rfl
  | cons c rest ih =>
    by_cases hc : c = sep
    · simp [goSplitChar, hc]
    · simpa [goSplitChar, hc, List.takeWhile_cons] using ih

/-- Go split of a list with a separator-free head followed by one
separator: the head becomes the first chunk. -/
theorem goSplitChar_append_sep (sep : Char) (r : List Char) :
    ∀ pre : List Char, (∀ c ∈ pre, c ≠ sep) →
      goSplitChar sep (pre ++ sep :: r) = pre :: goSplitChar sep r := by
  intro pre
  induction pre with
  | nil => intro _; simp [goSplitChar]
  | cons c cs ih =>
    intro hpre
    have hc : c ≠ sep := hpre c (by simp)
    have ih2 := ih (fun x hx => hpre x (List.mem_cons_of_mem _ hx))
    simp [goSplitChar, hc, ih2]

/-- Lower-casing maps only capital letters down, so the only character
that lower-cases to the space character is the space character. -/
theorem lowerChar_eq_space (c : Char) (h : lowerChar c = ' ') : c = ' ' := by
  unfold lowerChar at h
  split at h
  · exfalso
    rename_i hc
    have hval : (c.toNat + 32).isValidChar := Or.inl (by omega)
    rw [Char.ofNat, dif_pos hval] at h
    have h4 : (Char.ofNatAux (c.toNat + 32) hval).toNat = c.toNat + 32 := rfl
    have h3 : (Char.ofNatAux (c.toNat + 32) hval).toNat = (' ' : Char).toNat := by rw [h]
    rw [h4] at h3
    have h5 : (' ' : Char).toNat = 32 := rfl
    omega
  · exact h

end GoaJwt

namespace GoaJwt

/-- C6 counterexample: the source splits the header value on the space
character only, so a token containing a tab is returned whole, while
the remainder-up-to-the-first-whitespace reading of the claim would cut
it at the tab. -/
theorem extract_header_whitespace_counterexample :
    extractTokenFromHeader "Authorization"
      { headers := [("Authorization", "Bearer a\tb")], query := [] } =
      Except.ok ("a\tb".toList) ∧
    "a\tb".toList ≠
      ("Bearer a\tb".toList.drop 7).takeWhile (fun c => !c.isWhitespace) :=
  ⟨rfl, by decide⟩

/-- C6 amended: header extraction fails with a 401 jwt_security_error
exactly when the named header is missing or empty or its value does not
start with the case-insensitive bearer marker, and on success the token
is the remainder of the header value after the seven marker characters
up to the first space character (the source splits on the space
character only, not on arbitrary whitespace). -/
theorem extractTokenFromHeader_spec (schemeName : String) (req : Request) :
    ((∃ out, extractTokenFromHeader schemeName req = Except.error out) ↔
      (headerGet req schemeName = "" ∨
        ("bearer ".toList).isPrefixOf (lowerStr (headerGet req schemeName).toList) = false)) ∧
    (∀ out, extractTokenFromHeader schemeName req = Except.error out →
      ∃ msg, out = mkJWTError msg []) ∧
    (∀ l, extractTokenFromHeader schemeName req = Except.ok l →
      l = ((headerGet req schemeName).toList.drop 7).takeWhile (fun c => c != ' ')) := by
  by_cases h0 : headerGet req schemeName = ""
  · refine ⟨?_, ?_, ?_⟩
    · simp [extractTokenFromHeader, h0]
    · intro out hout
      simp [extractTokenFromHeader, h0] at hout
      exact ⟨_, hout.symm⟩
    · intro l hl
      simp [extractTokenFromHeader, h0] at hl
  · by_cases h1 : ("bearer ".toList).isPrefixOf (lowerStr (headerGet req schemeName).toList) = true
    · have h1p : ['b', 'e', 'a', 'r', 'e', 'r', ' '] <+: lowerStr (headerGet req schemeName).data :=
        by simpa using List.isPrefixOf_iff_prefix.1 h1
      refine ⟨?_, ?_, ?_⟩
      · constructor
        · rintro ⟨out, hout⟩
          simp [extractTokenFromHeader, h0, h1p] at hout
        · intro hor
          rcases hor with h | h
          · exact absurd h h0
          · rw [h1] at h
            exact absurd h (by simp)
      · intro out hout
        simp [extractTokenFromHeader, h0, h1p] at hout
      · intro l hl
        unfold extractTokenFromHeader at hl
        dsimp only at hl
        rw [if_neg h0, if_pos h1] at hl
        injection hl with hl
        obtain ⟨tl, htl⟩ := List.isPrefixOf_iff_prefix.1 h1
        rw [lowerStr] at htl
        have hm : List.map lowerChar (headerGet req schemeName).toList =
            'b' :: 'e' :: 'a' :: 'r' :: 'e' :: 'r' :: ' ' :: tl := htl.symm
        obtain ⟨c0, L0, hL0, hc0, hm0⟩ := List.map_eq_cons_iff.1 hm
        obtain ⟨c1, L1, rfl, hc1, hm1⟩ := List.map_eq_cons_iff.1 hm0
        obtain ⟨c2, L2, rfl, hc2, hm2⟩ := List.map_eq_cons_iff.1 hm1
        obtain ⟨c3, L3, rfl, hc3, hm3⟩ := List.map_eq_cons_iff.1 hm2
        obtain ⟨c4, L4, rfl, hc4, hm4⟩ := List.map_eq_cons_iff.1 hm3
        obtain ⟨c5, L5, rfl, hc5, hm5⟩ := List.map_eq_cons_iff.1 hm4
        obtain ⟨c6, L6, rfl, hc6, hm6⟩ := List.map_eq_cons_iff.1 hm5
        have hc6s : c6 = ' ' := lowerChar_eq_space c6 hc6
        subst hc6s
        have hs0 : c0 ≠ ' ' := by intro hx; rw [hx] at hc0; exact absurd hc0 (by decide)
        have hs1 : c1 ≠ ' ' := by intro hx; rw [hx] at hc1; exact absurd hc1 (by decide)
        have hs2 : c2 ≠ ' ' := by intro hx; rw [hx] at hc2; exact absurd hc2 (by decide)
        have hs3 : c3 ≠ ' ' := by intro hx; rw [hx] at hc3; exact absurd hc3 (by decide)
        have hs4 : c4 ≠ ' ' := by intro hx; rw [hx] at hc4; exact absurd hc4 (by decide)
        have hs5 : c5 ≠ ' ' := by intro hx; rw [hx] at hc5; exact absurd hc5 (by decide)
        have hsp : goSplitChar ' ' (c0 :: c1 :: c2 :: c3 :: c4 :: c5 :: ' ' :: L6) =
            [c0, c1, c2, c3, c4, c5] :: goSplitChar ' ' L6 := by
          have hmem : ∀ x ∈ [c0, c1, c2, c3, c4, c5], x ≠ ' ' := by
            intro x hx
            simp at hx
            rcases hx with rfl | rfl | rfl | rfl | rfl | rfl
            exacts [hs0, hs1, hs2, hs3, hs4, hs5]
          simpa using goSplitChar_append_sep ' ' L6 [c0, c1, c2, c3, c4, c5] hmem
        have hgetD : ∀ L : List (List Char), L.getD 0 [] = L.headD [] := by
          intro L
          cases L <;> rfl
        rw [hL0] at hl ⊢
        rw [hsp] at hl
        rw [show ([c0, c1, c2, c3, c4, c5] :: goSplitChar ' ' L6).getD 1 [] =
          (goSplitChar ' ' L6).getD 0 [] from rfl, hgetD, goSplitChar_headD] at hl
        rw [← hl]
        rfl
    · have h1n : ¬ (['b', 'e', 'a', 'r', 'e', 'r', ' '] <+: lowerStr (headerGet req schemeName).data) := by
        intro hp
        exact h1 (List.isPrefixOf_iff_prefix.2 (by simpa using hp))
      refine ⟨?_, ?_, ?_⟩
      · constructor
        · intro _
          right
          exact Bool.not_eq_true _ ▸ h1
        · intro _
          exact ⟨mkJWTError "invalid or malformed header, expected Bearer JWT-token" [],
            by simp [extractTokenFromHeader, h0, h1n]⟩
      · intro out hout
        simp [extractTokenFromHeader, h0, h1n] at hout
        exact ⟨_, hout.symm⟩
      · intro l hl
        simp [extractTokenFromHeader, h0, h1n] at hl

/-- C6 witness: a concrete header in capitals with two chunks after the
marker extracts the first chunk, matching the up-to-first-space
reading. -/
theorem extractTokenFromHeader_spec_witness :
    extractTokenFromHeader "Authorization"
      { headers := [("Authorization", "BEARER abc def")], query := [] } =
      Except.ok ("abc".toList) ∧
    "abc".toList =
      ((headerGet { headers := [("Authorization", "BEARER abc def")], query := [] }
        "Authorization").toList.drop 7).takeWhile (fun c => c != ' ') :=
  ⟨rfl, (extractTokenFromHeader_spec "Authorization"
    { headers := [("Authorization", "BEARER abc def")], query := [] }).2.2
    ("abc".toList) rfl⟩

end GoaJwt

namespace GoaDSL

/-- C8: when the API and resource base paths share a placeholder whose
two declarations differ in type or description, Run records a
ParamConflict error if the resource base path is not absolute, and
records no ParamConflict error at all when the resource base path
begins with two slashes, even though the resource redeclares the
placeholder itself. -/
theorem base_param_conflict_rule (api : APIDef) (res : ResourceDef) (w : String)
    (a b : AttrDecl)
    (hw1 : w ∈ extractWildcards api.basePath)
    (hw2 : w ∈ extractWildcards res.basePath)
    (ha : api.params.lookup w = some a)
    (hb : res.params.lookup w = some b)
    (hab : a ≠ b) :
    (isAbsolute res.basePath = false →
      DSLError.paramConflict w ∈ runErrors api res) ∧
    (isAbsolute res.basePath = true →
      ∀ w2, DSLError.paramConflict w2 ∉ runErrors api res) := by
  constructor
  · intro habs
    rw [runErrors]
    refine List.mem_append.2 (Or.inl ?_)
    rw [baseParamsConflicts, if_neg (by rw [habs]; exact Bool.false_ne_true)]
    refine List.mem_map.2 ⟨w, ?_, rfl⟩
    refine List.mem_filter.2 ⟨hw1, ?_⟩
    rw [Bool.and_eq_true]
    constructor
    · simpa using hw2
    · rw [ha, hb]
      simp [hab]
  · intro habs w2
    rw [runErrors]
    intro hmem
    rcases List.mem_append.1 hmem with hmem | hmem
    · rw [baseParamsConflicts, if_pos habs] at hmem
      simp at hmem
    · rw [runResource] at hmem
      dsimp only at hmem
      rw [resourceValidate] at hmem
      by_cases hn : (resourceFinalize res).name = ""
      · rw [if_pos hn] at hmem
        simp at hmem
      · rw [if_neg hn] at hmem
        simp at hmem

/-- C8 witness: the concrete scenario of the API DSL test, an API with
an accountID base param of Integer type and a resource redeclaring
accountID with String type: the relative base path conflicts, the
absolute one does not. -/
theorem base_param_conflict_rule_witness :
    DSLError.paramConflict "accountID" ∈ runErrors
      { name := "x", basePath := "/:accountID/:id",
        params := [("accountID", { attrType := "Integer", description := "acct" }),
                   ("id", { attrType := "String", description := "id" })] }
      { name := "foo", basePath := "/:accountID",
        params := [("accountID", { attrType := "String", description := "acct" })],
        mediaType := "" } ∧
    ∀ w2, DSLError.paramConflict w2 ∉ runErrors
      { name := "x", basePath := "/:accountID/:id",
        params := [("accountID", { attrType := "Integer", description := "acct" }),
                   ("id", { attrType := "String", description := "id" })] }
      { name := "foo", basePath := "//:accountID",
        params := [("accountID", { attrType := "String", description := "acct" })],
        mediaType := "" } :=
  ⟨(base_param_conflict_rule
      { name := "x", basePath := "/:accountID/:id",
        params := [("accountID", { attrType := "Integer", description := "acct" }),
                   ("id", { attrType := "String", description := "id" })] }
      { name := "foo", basePath := "/:accountID",
        params := [("accountID", { attrType := "String", description := "acct" })],
        mediaType := "" }
      "accountID"
      { attrType := "Integer", description := "acct" }
      { attrType := "String", description := "acct" }
      (by decide) (by decide) rfl rfl (by decide)).1 (by decide),
   (base_param_conflict_rule
      { name := "x", basePath := "/:accountID/:id",
        params := [("accountID", { attrType := "Integer", description := "acct" }),
                   ("id", { attrType := "String", description := "id" })] }
      { name := "foo", basePath := "//:accountID",
        params := [("accountID", { attrType := "String", description := "acct" })],
        mediaType := "" }
      "accountID"
      { attrType := "Integer", description := "acct" }
      { attrType := "String", description := "acct" }
      (by decide) (by decide) rfl rfl (by decide)).2 (by decide)⟩

/-- C9: a resource declared with a non-empty name and no DSL body
validates without error after Run and its stored default media type is
text/plain. -/
theorem resource_no_dsl_defaults (name : String) (h : name ≠ "") :
    (runResource (mkResource name)).2 = [] ∧
    (runResource (mkResource name)).1.mediaType = "text/plain" := by
  constructor
  · rw [runResource]
    dsimp only
    rw [resourceValidate]
    rw [if_neg (by simpa [resourceFinalize, mkResource] using h)]
  · rw [runResource]
    dsimp only
    rw [resourceFinalize]
    simp [mkResource]

/-- C9 witness: the resource named foo from the test. -/
theorem resource_no_dsl_defaults_witness :
    (runResource (mkResource "foo")).2 = [] ∧
    (runResource (mkResource "foo")).1.mediaType = "text/plain" :=
  resource_no_dsl_defaults "foo" (by decide)

end GoaDSL
